import Mathlib

/-!
Shallow embedding of the FileListing component of onedrive-vercel-index
(src/components/FileListing.tsx, both revisions present in the repository)
together with proofs about its path handling, selection bookkeeping and
download orchestration.

JavaScript strings are modelled as Lean `String`, JavaScript objects used as
string-keyed maps as ordered association lists `List (String × Bool)`
(JavaScript objects preserve insertion order and have unique keys), and
`string | null` values as `Option String`.  Effectful handlers are modelled
as pure functions returning a trace of UI effects.
-/

/-- UTF-8 byte sequence of a unicode scalar value, as used by JavaScript
`encodeURIComponent` when percent-encoding a character. -/
def utf8Bytes (c : Char) : List Nat :=
  let n := c.toNat
  if n < 128 then [n]
  else if n < 2048 then [192 + n / 64, 128 + n % 64]
  else if n < 65536 then [224 + n / 4096, 128 + (n / 64) % 64, 128 + n % 64]
  else [240 + n / 262144, 128 + (n / 4096) % 64, 128 + (n / 64) % 64, 128 + n % 64]

/-- Uppercase hexadecimal digit, for percent-escapes. -/
def hexDigitUpper (n : Nat) : Char :=
  if n < 10 then Char.ofNat (48 + n) else Char.ofNat (55 + n)

/-- Percent-escape of a single byte, e.g. 32 ↦ "%20". -/
def percentEncodeByte (b : Nat) : String :=
  String.mk [Char.ofNat 37, hexDigitUpper (b / 16), hexDigitUpper (b % 16)]

/-- Characters left unescaped by JavaScript `encodeURIComponent`:
A-Z, a-z, 0-9 and - _ . ! ~ * ' ( ). -/
def isUnreservedChar (c : Char) : Bool :=
  (65 ≤ c.toNat && c.toNat ≤ 90) ||
  (97 ≤ c.toNat && c.toNat ≤ 122) ||
  (48 ≤ c.toNat && c.toNat ≤ 57) ||
  [45, 95, 46, 33, 126, 42, 39, 40, 41].contains c.toNat

/-- Model of JavaScript `encodeURIComponent`: unreserved characters are kept,
every other character is replaced by the percent-escapes of its UTF-8 bytes. -/
def encodeURIComponent (s : String) : String :=
  String.join (s.data.map (fun c =>
    if isUnreservedChar c then String.mk [c]
    else String.join ((utf8Bytes c).map percentEncodeByte)))

/-- Value of the `path` entry of a `ParsedUrlQuery`: either a single string or
an array of string segments. -/
inductive QueryPathVal where
  | str (s : String)
  | arr (segs : List String)
deriving DecidableEq

/-- The part of a `ParsedUrlQuery` read by `queryToPath`: the optional `path`
entry. -/
structure ParsedUrlQuery where
  path : Option QueryPathVal
deriving DecidableEq

/-- JavaScript truthiness of the `path` query value: `undefined` and the empty
string are falsy, every other string and every array (even empty) is truthy. -/
def queryPathTruthy : Option QueryPathVal → Bool
  | none => false
  | some (QueryPathVal.str s) => s != ""
  | some (QueryPathVal.arr _) => true

/-- Model of `queryToPath` (FileListing.tsx): converts the route query into a
path string.  Follows the source: `if (query) { const { path } = query; if
(!path) return '/'; if (typeof path === 'string') return
`/${encodeURIComponent(path)}`; return `/${path.map(p =>
encodeURIComponent(p)).join('/')}` } return '/'`. -/
def queryToPath : Option ParsedUrlQuery → String
  | none => "/"
  | some q =>
    if !(queryPathTruthy q.path) then "/"
    else
      match q.path with
      | none => "/"
      | some (QueryPathVal.str s) => "/" ++ encodeURIComponent s
      | some (QueryPathVal.arr segs) =>
          "/" ++ String.intercalate "/" (segs.map encodeURIComponent)

/-- A folder child as read by the component: display name, unique id and
whether the `folder` facet is present. -/
structure OdChild where
  name : String
  id : String
  isFolder : Bool
deriving DecidableEq

/-- Model of `getFiles` (FileListing.tsx):
`folderChildren.filter(c => !c.folder && c.name !== '.password')`. -/
def getFiles (children : List OdChild) : List OdChild :=
  children.filter (fun c => !c.isFolder && c.name != ".password")

/-- Selection state: a JavaScript object mapping child ids to booleans,
modelled as an ordered association list. -/
abbrev SelMap := List (String × Bool)

/-- JavaScript `Boolean(selected[id])`: the stored value if the key is
present, `false` otherwise. -/
def selLookup (m : SelMap) (k : String) : Bool :=
  match m.lookup k with
  | some b => b
  | none => false

/-- Model of `genTotalSelected` (FileListing.tsx): maps the listed files to
their selection status, then returns 1 if both a selected and an unselected
file exist, else 2 if no unselected file exists, else 0. -/
def genTotalSelected (children : List OdChild) (selected : SelMap) : Nat :=
  let selectInfo := (getFiles children).map (fun c => selLookup selected c.id)
  let hasT := selectInfo.any (fun i => i)
  let hasF := selectInfo.any (fun i => !i)
  if hasT && hasF then 1 else if !hasF then 2 else 0

/-- JavaScript `Object.entries(selected).filter(([k]) => k !== id)` composed
with `Object.fromEntries`: drops the entry keyed `id`. -/
def removeKey (m : SelMap) (id : String) : SelMap :=
  m.filter (fun kv => kv.1 != id)

/-- JavaScript spread `{...selected, [id]: true}`: updates the entry in place
when the key is present, appends it otherwise. -/
def setKeyTrue (m : SelMap) (id : String) : SelMap :=
  if (m.lookup id).isSome then
    m.map (fun kv => if kv.1 = id then (kv.1, true) else kv)
  else m ++ [(id, true)]

/-- Model of the map update in `toggleItemSelected` (FileListing.tsx):
`selected[id] ? Object.fromEntries(Object.entries(selected).filter(([k]) => k
!== id)) : { ...selected, [id]: true }`. -/
def toggleItemSelected (m : SelMap) (id : String) : SelMap :=
  if selLookup m id then removeKey m id else setKeyTrue m id

/-- Model of the map update in `toggleTotalSelected` (both revisions):
`genTotalSelected(selected) === 2 ? {} :
Object.fromEntries(getFiles().map(c => [c.id, true]))`. -/
def toggleTotalSelectedSel (children : List OdChild) (m : SelMap) : SelMap :=
  if genTotalSelected children m = 2 then []
  else (getFiles children).map (fun c => (c.id, true))

/-- The selection-related component state: the `selected` map and the stored
tri-value aggregate `totalSelected`. -/
structure ListingState where
  selected : SelMap
  totalSelected : Nat
deriving DecidableEq

/-- Model of `toggleItemSelected` acting on the component state (identical in
both revisions): stores the updated map and `genTotalSelected` of it. -/
def toggleItemSelectedState (children : List OdChild) (st : ListingState) (id : String) : ListingState :=
  let val := toggleItemSelected st.selected id
  ⟨val, genTotalSelected children val⟩

/-- Model of `toggleTotalSelected` of the first revision (FileListing.tsx
lines 145-148): stores the new map but `genTotalSelected` of the OLD map. -/
def toggleTotalSelectedV1 (children : List OdChild) (st : ListingState) : ListingState :=
  ⟨toggleTotalSelectedSel children st.selected, genTotalSelected children st.selected⟩

/-- Model of `toggleTotalSelected` of the second revision (lines 344-348):
stores the new map and `genTotalSelected` of the new map. -/
def toggleTotalSelectedV2 (children : List OdChild) (st : ListingState) : ListingState :=
  let ns := toggleTotalSelectedSel children st.selected
  ⟨ns, genTotalSelected children ns⟩

/-- JavaScript truthiness of a `string | null` token value: `null` and the
empty string are falsy. -/
def jsTruthyOpt : Option String → Bool
  | some s => s != ""
  | none => false

/-- Raw-file URL template shared by `handleSelectedDownload` and
`handleSelectedPermalink` (both revisions):
`/api/raw/?path=${path}/${encodeURIComponent(c.name)}${hashedToken ?
`&odpt=${hashedToken}` : ''}`. -/
def rawFileUrl (path : String) (tok : Option String) (name : String) : String :=
  "/api/raw/?path=" ++ path ++ "/" ++ encodeURIComponent name ++
    (if jsTruthyOpt tok then "&odpt=" ++ tok.getD "" else "")

/-- A name-url record produced for a selected file. -/
structure NamedUrl where
  name : String
  url : String
deriving DecidableEq

/-- The `files` list built by `handleSelectedDownload`:
`getFiles().filter(c => selected[c.id]).map(c => ({ name: c.name, url: ... }))`. -/
def selectedDownloadFiles (children : List OdChild) (m : SelMap) (path : String) (tok : Option String) : List NamedUrl :=
  ((getFiles children).filter (fun c => selLookup m c.id)).map
    (fun c => ⟨c.name, rawFileUrl path tok c.name⟩)

/-- Outcome of the `downloadMultipleFiles` promise. -/
inductive PromiseOutcome where
  | resolved
  | rejected
deriving DecidableEq

/-- UI effects performed by the download handlers, in order. -/
inductive UIEffect where
  | anchorClick (url : String)
  | setTotalGenerating (b : Bool)
  | toastLoading
  | callDownloadMultipleFiles (files : List NamedUrl)
  | toastSuccessReplacingLoading
  | toastErrorReplacingLoading
deriving DecidableEq

/-- Model of `handleSelectedDownload` (both revisions) as the trace of UI
effects it performs, given the outcome of the bulk-download promise: with
exactly one selected file it clicks an anchor on that file's raw URL; with
more than one it sets the generating flag, shows a loading toast, calls
`downloadMultipleFiles`, and on settlement clears the flag and replaces the
toast with a success or error toast; with none it does nothing. -/
def handleSelectedDownload (children : List OdChild) (m : SelMap) (path : String) (tok : Option String) (out : PromiseOutcome) : List UIEffect :=
  let files := selectedDownloadFiles children m path tok
  if files.length = 1 then
    [UIEffect.anchorClick ((files.headD ⟨"", ""⟩).url)]
  else if files.length > 1 then
    [UIEffect.setTotalGenerating true, UIEffect.toastLoading,
     UIEffect.callDownloadMultipleFiles files] ++
      (match out with
       | PromiseOutcome.resolved =>
           [UIEffect.setTotalGenerating false, UIEffect.toastSuccessReplacingLoading]
       | PromiseOutcome.rejected =>
           [UIEffect.setTotalGenerating false, UIEffect.toastErrorReplacingLoading])
  else []

/-- Model of `handleSelectedPermalink` (both revisions):
`getFiles().filter(c => selected[c.id]).map(c =>
`${baseUrl}/api/raw/?path=${path}/${encodeURIComponent(c.name)}${hashedToken ?
`&odpt=${hashedToken}` : ''}`).join('\n')`. -/
def handleSelectedPermalink (children : List OdChild) (m : SelMap) (path : String) (tok : Option String) (baseUrl : String) : String :=
  String.intercalate "\n"
    (((getFiles children).filter (fun c => selLookup m c.id)).map
      (fun c => baseUrl ++ "/api/raw/?path=" ++ path ++ "/" ++ encodeURIComponent c.name ++
        (if jsTruthyOpt tok then "&odpt=" ++ tok.getD "" else "")))

/-- An error carried by a traversal entry. -/
structure TraverseError where
  status : Nat
  message : String
deriving DecidableEq

/-- An entry produced by `traverseFolder`: the child's name (absent when the
metadata is missing), its path, whether it is a folder, and an optional
error. -/
structure TraverseEntry where
  name : Option String
  path : String
  isFolder : Bool
  error : Option TraverseError
deriving DecidableEq

/-- A record yielded to `downloadTreelikeMultipleFiles`. -/
structure TreeFile where
  name : Option String
  url : String
  path : String
  isFolder : Bool
deriving DecidableEq

/-- A per-entry toast emitted during a folder download. -/
inductive FolderToast where
  | failedFolderEntry (path : String) (status : Nat) (message : String)
deriving DecidableEq

/-- Model of the generator loop in `handleFolderDownload` of the first
revision (FileListing.tsx lines 183-191): entries with an error are skipped
silently (`if (!error) yield ...`), the rest are mapped to raw URLs using the
page-level token.  Returns the per-entry toasts (none) and the yielded
files. -/
def handleFolderDownloadV1 (tok : Option String) : List TraverseEntry → List FolderToast × List TreeFile
  | [] => ([], [])
  | e :: rest =>
    let acc := handleFolderDownloadV1 tok rest
    match e.error with
    | some _ => acc
    | none =>
        (acc.1,
         ⟨e.name,
          "/api/raw/?path=" ++ e.path ++
            (if jsTruthyOpt tok then "&odpt=" ++ tok.getD "" else ""),
          e.path, e.isFolder⟩ :: acc.2)

/-- Model of the generator loop in `handleFolderDownload` of the second
revision (lines 390-415): an entry with an error produces an error toast
naming its path, status and message and is skipped (`continue`); other
entries are yielded with a token looked up for their own path.  Returns the
per-entry toasts and the yielded files, each in traversal order. -/
def handleFolderDownloadV2 (tokenFor : String → Option String) : List TraverseEntry → List FolderToast × List TreeFile
  | [] => ([], [])
  | e :: rest =>
    let acc := handleFolderDownloadV2 tokenFor rest
    match e.error with
    | some err =>
        (FolderToast.failedFolderEntry e.path err.status err.message :: acc.1, acc.2)
    | none =>
        (acc.1,
         ⟨e.name,
          "/api/raw/?path=" ++ e.path ++
            (if jsTruthyOpt (tokenFor e.path) then "&odpt=" ++ (tokenFor e.path).getD "" else ""),
          e.path, e.isFolder⟩ :: acc.2)

/-- Lowercase hexadecimal digit, for JSON `\u00xx` escapes. -/
def hexDigitLower (n : Nat) : Char :=
  if n < 10 then Char.ofNat (48 + n) else Char.ofNat (87 + n)

/-- Escape of a single character under JavaScript `JSON.stringify`: quote and
backslash are backslash-escaped, the named control escapes are used for
backspace, form feed, newline, carriage return and tab, other control
characters become `\u00xx`, and everything else is kept. -/
def jsonEscapeChar (c : Char) : String :=
  if c.toNat = 34 then String.mk [Char.ofNat 92, Char.ofNat 34]
  else if c.toNat = 92 then String.mk [Char.ofNat 92, Char.ofNat 92]
  else if c.toNat = 8 then "\\b"
  else if c.toNat = 12 then "\\f"
  else if c.toNat = 10 then "\\n"
  else if c.toNat = 13 then "\\r"
  else if c.toNat = 9 then "\\t"
  else if c.toNat < 32 then
    String.mk [Char.ofNat 92, Char.ofNat 117, Char.ofNat 48, Char.ofNat 48,
               hexDigitLower (c.toNat / 16), hexDigitLower (c.toNat % 16)]
  else String.mk [c]

/-- Model of JavaScript `JSON.stringify` applied to a string: the escaped
characters wrapped in double quotes. -/
def jsonStringifyString (s : String) : String :=
  "\"" ++ String.join (s.data.map jsonEscapeChar) ++ "\""

/-- A fetch error as surfaced by the SWR hook: HTTP status and message. -/
structure FetchError where
  status : Nat
  message : String
deriving DecidableEq

/-- What `FileListing` renders on a fetch error. -/
inductive ErrorRenderResult where
  | redirectWithEmptyDiv (target : String)
  | authPrompt (redirect : String)
  | fourOhFour (errorMsg : String)
deriving DecidableEq

/-- Model of the error branch of `FileListing` (both revisions): status 403
pushes the OAuth route and renders an empty div, status 401 renders the
`Auth` prompt with the current path as redirect, anything else renders
`FourOhFour` with `JSON.stringify(error.message)`. -/
def renderFetchError (e : FetchError) (path : String) : ErrorRenderResult :=
  if e.status = 403 then
    ErrorRenderResult.redirectWithEmptyDiv "/onedrive-vercel-index-oauth/step-1"
  else if e.status = 401 then ErrorRenderResult.authPrompt path
  else ErrorRenderResult.fourOhFour (jsonStringifyString e.message)

/-- Keys of a selection map, in insertion order. -/
def selKeys (m : SelMap) : List String := m.map Prod.fst

/-- A selection operation available in the folder view. -/
inductive SelOp where
  | item (id : String)
  | total
deriving DecidableEq

/-- One selection operation applied to the selection map. -/
def applySelOp (children : List OdChild) (m : SelMap) : SelOp → SelMap
  | SelOp.item id => toggleItemSelected m id
  | SelOp.total => toggleTotalSelectedSel children m

/-- A sequence of selection operations run from the initial empty selection
(the `useState({})` initial state). -/
def runSelOps (children : List OdChild) (ops : List SelOp) : SelMap :=
  ops.foldl (applySelOp children) []

example : queryToPath (some ⟨some (QueryPathVal.str "docs")⟩) = "/docs" := by decide

example : encodeURIComponent "a b" = "a%20b" := by decide

example : genTotalSelected [⟨"a.txt", "f1", false⟩] [("f1", true)] = 2 := by decide

/-- C1 counterexample: for the single-string query segment "a b" the code
returns the URL-encoded path "/a%20b", not the segment itself prefixed with
a slash as the claim states. -/
theorem queryToPath_cex :
    queryToPath (some ⟨some (QueryPathVal.str "a b")⟩) = "/a%20b" ∧
    queryToPath (some ⟨some (QueryPathVal.str "a b")⟩) ≠ "/a b" := by
  decide

/-- C1 (amended): `queryToPath` returns "/" when the query is absent or has
no `path`; for a single string it returns the URL-encoded (per
`encodeURIComponent`) segment prefixed with "/"; for an array it returns the
URL-encoded segments joined with "/" and prefixed with "/". -/
theorem queryToPath_amended :
    queryToPath none = "/" ∧
    queryToPath (some ⟨none⟩) = "/" ∧
    (∀ s : String,
      queryToPath (some ⟨some (QueryPathVal.str s)⟩) = "/" ++ encodeURIComponent s) ∧
    (∀ segs : List String,
      queryToPath (some ⟨some (QueryPathVal.arr segs)⟩) =
        "/" ++ String.intercalate "/" (segs.map encodeURIComponent)) := by
  refine ⟨rfl, rfl, ?_, fun segs => rfl⟩
  intro s
  by_cases hs : s = ""
  · subst hs; decide
  · simp [queryToPath, queryPathTruthy, hs]

/-- Branch-free restatement of `genTotalSelected` used by the proofs. -/
theorem genTotalSelected_eq (children : List OdChild) (m : SelMap) :
    genTotalSelected children m =
      (if ((getFiles children).any fun c => selLookup m c.id) &&
          ((getFiles children).any fun c => !(selLookup m c.id)) then 1
       else if !((getFiles children).any fun c => !(selLookup m c.id)) then 2
       else 0) := by
  simp [genTotalSelected, List.any_map, Function.comp]

/-- C2 counterexample: a listing whose only child is a folder has no listed
files, so no listed file is selected, yet `genTotalSelected` returns 2
rather than the 0 required by the claim. -/
theorem genTotalSelected_cex :
    getFiles [⟨"docs", "id1", true⟩] = [] ∧
    genTotalSelected [⟨"docs", "id1", true⟩] [] = 2 := by
  decide

/-- C2 (amended): when at least one listed file exists, `genTotalSelected`
returns 0 exactly when no listed file is selected, 2 exactly when all listed
files are selected, and 1 exactly when some but not all are selected; when
the listing has no files at all it returns 2. -/
theorem genTotalSelected_tri (children : List OdChild) (m : SelMap) :
    (getFiles children = [] → genTotalSelected children m = 2) ∧
    (getFiles children ≠ [] →
      ((genTotalSelected children m = 0 ↔
          ∀ c ∈ getFiles children, selLookup m c.id = false) ∧
       (genTotalSelected children m = 2 ↔
          ∀ c ∈ getFiles children, selLookup m c.id = true) ∧
       (genTotalSelected children m = 1 ↔
          ((∃ c ∈ getFiles children, selLookup m c.id = true) ∧
           (∃ c ∈ getFiles children, selLookup m c.id = false))))) := by
  constructor
  · intro h
    simp [genTotalSelected, h]
  · intro hne
    obtain ⟨c0, hc0⟩ := List.exists_mem_of_ne_nil _ hne
    rw [genTotalSelected_eq]
    cases hT : ((getFiles children).any fun c => selLookup m c.id) <;>
      cases hF : ((getFiles children).any fun c => !(selLookup m c.id))
    · exfalso
      rw [List.any_eq_false] at hT hF
      have h1 := hT c0 hc0
      have h2 := hF c0 hc0
      simp at h1 h2
      rw [h1] at h2
      simp at h2
    · rw [List.any_eq_false] at hT
      rw [List.any_eq_true] at hF
      refine ⟨?_, ?_, ?_⟩
      · simp only [Bool.false_and, if_neg, Bool.not_true, if_false]
        constructor
        · intro _ c hc
          have := hT c hc
          simpa using this
        · intro _; rfl
      · constructor
        · intro h; simp at h
        · intro h
          have := hT c0 hc0
          simp at this
          rw [h c0 hc0] at this
          simp at this
      · constructor
        · intro h; simp at h
        · rintro ⟨⟨c, hc, hsel⟩, -⟩
          have := hT c hc
          simp at this
          rw [hsel] at this
          simp at this
    · rw [List.any_eq_true] at hT
      rw [List.any_eq_false] at hF
      obtain ⟨c1, hc1, hsel1⟩ := hT
      refine ⟨?_, ?_, ?_⟩
      · constructor
        · intro h; simp at h
        · intro h
          rw [h c1 hc1] at hsel1
          exact absurd hsel1 (by simp)
      · constructor
        · intro _ c hc
          have := hF c hc
          simpa using this
        · intro _; simp
      · constructor
        · intro h; simp at h
        · rintro ⟨-, ⟨c, hc, hsel⟩⟩
          have := hF c hc
          simp at this
          rw [hsel] at this
          simp at this
    · rw [List.any_eq_true] at hT hF
      obtain ⟨c1, hc1, hsel1⟩ := hT
      obtain ⟨c2, hc2, hsel2⟩ := hF
      simp only [Bool.true_and, if_true, Bool.and_self]
      refine ⟨?_, ?_, ?_⟩
      · constructor
        · intro h; simp at h
        · intro h
          rw [h c1 hc1] at hsel1
          exact absurd hsel1 (by simp)
      · constructor
        · intro h; simp at h
        · intro h
          have := h c2 hc2
          rw [this] at hsel2
          simp at hsel2
      · constructor
        · intro _
          exact ⟨⟨c1, hc1, by simpa using hsel1⟩, ⟨c2, hc2, by simpa using hsel2⟩⟩
        · intro _; trivial

/-- C2 witness: instantiation of `genTotalSelected_tri` at a two-file
listing with exactly one file selected. -/
theorem genTotalSelected_tri_witness :
    getFiles [⟨"a.txt", "f1", false⟩, ⟨"b.txt", "f2", false⟩] ≠ [] ∧
    (genTotalSelected [⟨"a.txt", "f1", false⟩, ⟨"b.txt", "f2", false⟩] [("f1", true)] = 1 ↔
      ((∃ c ∈ getFiles [⟨"a.txt", "f1", false⟩, ⟨"b.txt", "f2", false⟩],
          selLookup [("f1", true)] c.id = true) ∧
       (∃ c ∈ getFiles [⟨"a.txt", "f1", false⟩, ⟨"b.txt", "f2", false⟩],
          selLookup [("f1", true)] c.id = false))) :=
  ⟨by decide,
   ((genTotalSelected_tri [⟨"a.txt", "f1", false⟩, ⟨"b.txt", "f2", false⟩]
      [("f1", true)]).2 (by decide)).2.2⟩

/-- Membership extracted from a successful association-list lookup. -/
theorem lookup_mem {m : SelMap} {k : String} {b : Bool}
    (h : List.lookup k m = some b) : (k, b) ∈ m := by
  induction m with
  | nil => simp [List.lookup] at h
  | cons kv rest ih =>
    obtain ⟨k1, b1⟩ := kv
    rw [List.lookup_cons] at h
    by_cases hk : k = k1
    · rw [show (k == k1) = true by simp [hk]] at h
      simp at h
      exact List.mem_cons.mpr (Or.inl (by rw [hk, ← h]))
    · rw [show (k == k1) = false by simp [hk]] at h
      exact List.mem_cons_of_mem _ (ih h)

/-- Lookup fails on a key carried by no entry. -/
theorem lookup_eq_none_of_forall {m : SelMap} {k : String}
    (h : ∀ kv ∈ m, kv.1 ≠ k) : List.lookup k m = none := by
  induction m with
  | nil => rfl
  | cons kv rest ih =>
    obtain ⟨k1, b1⟩ := kv
    rw [List.lookup_cons]
    have h1 : k1 ≠ k := by simpa using h (k1, b1) (List.mem_cons_self _ _)
    rw [show (k == k1) = false by simp [Ne.symm h1]]
    exact ih (fun kv2 h2 => h kv2 (List.mem_cons_of_mem _ h2))

/-- Keys absent from the lookup domain are carried by no entry. -/
theorem forall_ne_of_lookup_none {m : SelMap} {k : String}
    (h : List.lookup k m = none) : ∀ kv ∈ m, kv.1 ≠ k := by
  induction m with
  | nil => intro kv hkv; simp at hkv
  | cons kv0 rest ih =>
    intro kv hkv
    obtain ⟨k1, b1⟩ := kv0
    rw [List.lookup_cons] at h
    by_cases hk : k = k1
    · rw [show (k == k1) = true by simp [hk]] at h
      simp at h
    · rw [show (k == k1) = false by simp [hk]] at h
      rcases List.mem_cons.mp hkv with rfl | hmem
      · exact fun hcontra => hk hcontra.symm
      · exact ih h kv hmem

/-- Lookup distributes over append, preferring the left list. -/
theorem lookup_append (k : String) (l1 l2 : SelMap) :
    List.lookup k (l1 ++ l2) =
      match List.lookup k l1 with
      | some b => some b
      | none => List.lookup k l2 := by
  induction l1 with
  | nil => simp [List.lookup]
  | cons kv rest ih =>
    obtain ⟨k1, b1⟩ := kv
    by_cases hk : k = k1
    · simp [List.cons_append, List.lookup_cons, hk]
    · have hbeq : (k == k1) = false := by simp [hk]
      simp only [List.cons_append, List.lookup_cons, hbeq]
      exact ih

/-- Removing one key leaves lookups of other keys unchanged. -/
theorem lookup_removeKey_ne {m : SelMap} {k id : String} (h : k ≠ id) :
    List.lookup k (removeKey m id) = List.lookup k m := by
  induction m with
  | nil => rfl
  | cons kv rest ih =>
    obtain ⟨k1, b1⟩ := kv
    by_cases hkid : k1 = id
    · subst hkid
      have h1 : ((k1, b1).1 != k1) = false := by simp
      rw [removeKey, List.filter_cons, h1]
      simp only [Bool.false_eq_true, if_false]
      rw [show List.filter (fun kv => kv.1 != k1) rest = removeKey rest k1 from rfl, ih]
      rw [List.lookup_cons, show (k == k1) = false by simp [h]]
    · have h1 : ((k1, b1).1 != id) = true := by simp [hkid]
      rw [removeKey, List.filter_cons, h1]
      simp only [if_true]
      by_cases hk : k = k1
      · rw [List.lookup_cons, List.lookup_cons, show (k == k1) = true by simp [hk]]
      · rw [List.lookup_cons, List.lookup_cons, show (k == k1) = false by simp [hk]]
        rw [show List.filter (fun kv => kv.1 != id) rest = removeKey rest id from rfl, ih]

/-- Removing a key removes it from the lookup domain. -/
theorem lookup_removeKey_self (m : SelMap) (id : String) :
    List.lookup id (removeKey m id) = none := by
  apply lookup_eq_none_of_forall
  intro kv hkv
  have := List.of_mem_filter hkv
  simpa using this

/-- Removing an absent key is the identity. -/
theorem removeKey_eq_self {m : SelMap} {id : String}
    (h : List.lookup id m = none) : removeKey m id = m := by
  have hne := forall_ne_of_lookup_none h
  induction m with
  | nil => rfl
  | cons kv rest ih =>
    obtain ⟨k1, b1⟩ := kv
    have h1 : k1 ≠ id := by simpa using hne (k1, b1) (List.mem_cons_self _ _)
    have hkeep : ((k1, b1).1 != id) = true := by simp [h1]
    rw [removeKey, List.filter_cons, hkeep]
    simp only [if_true]
    rw [List.lookup_cons, show (id == k1) = false by simp [Ne.symm h1]] at h
    rw [show List.filter (fun kv => kv.1 != id) rest = removeKey rest id from rfl]
    rw [ih h (fun kv2 h2 => hne kv2 (List.mem_cons_of_mem _ h2))]

/-- C9: on a sparse selection map (no key bound to false), toggling the same
id twice returns a selection map equal to the original: every key is bound to
the same value (and hence present in one map exactly when present in the
other).  The first toggle adds the id mapped to true if absent or removes it
if present, and the second toggle undoes that change. -/
theorem toggleItemSelected_involutive (m : SelMap) (id : String)
    (h : ∀ kv ∈ m, kv.2 = true) :
    ∀ k : String,
      List.lookup k (toggleItemSelected (toggleItemSelected m id) id) =
        List.lookup k m := by
  intro k
  cases hsel : selLookup m id with
  | false =>
    have hnone : List.lookup id m = none := by
      cases hl : List.lookup id m with
      | none => rfl
      | some b =>
        have hb : b = true := h _ (lookup_mem hl)
        rw [selLookup, hl, hb] at hsel
        simp at hsel
    have ht1 : toggleItemSelected m id = m ++ [(id, true)] := by
      rw [toggleItemSelected, if_neg (by simp [hsel]), setKeyTrue, hnone]
      simp
    have hl2 : List.lookup id (m ++ [(id, true)]) = some true := by
      rw [lookup_append, hnone]
      simp [List.lookup_cons]
    have hsel2 : selLookup (m ++ [(id, true)]) id = true := by
      rw [selLookup, hl2]
    rw [ht1, toggleItemSelected, if_pos (by simp [hsel2])]
    have hsplit : removeKey (m ++ [(id, true)]) id = m := by
      rw [removeKey, List.filter_append]
      rw [show List.filter (fun kv => kv.1 != id) m = removeKey m id from rfl,
          removeKey_eq_self hnone]
      simp
    rw [hsplit]
  | true =>
    have hsome : List.lookup id m = some true := by
      cases hl : List.lookup id m with
      | none => rw [selLookup, hl] at hsel; simp at hsel
      | some b => simp [selLookup, hl] at hsel; rw [hsel]
    have ht1 : toggleItemSelected m id = removeKey m id := by
      rw [toggleItemSelected, if_pos (by simp [hsel])]
    have hnone2 : List.lookup id (removeKey m id) = none := lookup_removeKey_self m id
    have hsel2 : selLookup (removeKey m id) id = false := by
      rw [selLookup, hnone2]
    have ht2 : toggleItemSelected (removeKey m id) id = removeKey m id ++ [(id, true)] := by
      rw [toggleItemSelected, if_neg (by simp [hsel2]), setKeyTrue, hnone2]
      simp
    rw [ht1, ht2]
    by_cases hk : k = id
    · subst hk
      rw [lookup_append, hnone2, hsome]
      simp [List.lookup_cons]
    · have heq : List.lookup k (removeKey m id) = List.lookup k m := lookup_removeKey_ne hk
      have hlast : List.lookup k ([(id, true)] : SelMap) = none := by
        rw [List.lookup_cons, show (k == id) = false by simp [hk]]
        rfl
      rw [lookup_append, heq]
      cases hrem : List.lookup k m with
      | none => simp only [hrem]; exact hlast
      | some b => simp only [hrem]

/-- C9 witness: instantiation of `toggleItemSelected_involutive` at the
sparse map binding "f1" and "f2" to true, toggling "f1" twice and looking up
each of the two keys. -/
theorem toggleItemSelected_involutive_witness :
    List.lookup "f1" (toggleItemSelected (toggleItemSelected [("f1", true), ("f2", true)] "f1") "f1") =
      List.lookup "f1" [("f1", true), ("f2", true)] ∧
    List.lookup "f2" (toggleItemSelected (toggleItemSelected [("f1", true), ("f2", true)] "f1") "f1") =
      List.lookup "f2" [("f1", true), ("f2", true)] :=
  ⟨toggleItemSelected_involutive [("f1", true), ("f2", true)] "f1" (by decide) "f1",
   toggleItemSelected_involutive [("f1", true), ("f2", true)] "f1" (by decide) "f2"⟩

/-- One selection operation preserves the selection-key invariant. -/
theorem applySelOp_keys_subset (children : List OdChild) (m : SelMap) (op : SelOp)
    (hm : ∀ k ∈ selKeys m, k ∈ (getFiles children).map OdChild.id)
    (hop : ∀ id, op = SelOp.item id → id ∈ (getFiles children).map OdChild.id) :
    ∀ k ∈ selKeys (applySelOp children m op), k ∈ (getFiles children).map OdChild.id := by
  cases op with
  | total =>
    intro k hk
    rw [applySelOp, toggleTotalSelectedSel] at hk
    by_cases hgen : genTotalSelected children m = 2
    · rw [if_pos hgen] at hk
      simp [selKeys] at hk
    · rw [if_neg hgen] at hk
      rw [selKeys, List.map_map] at hk
      obtain ⟨c, hc, hck⟩ := List.mem_map.mp hk
      exact List.mem_map.mpr ⟨c, hc, hck⟩
  | item id =>
    have hid := hop id rfl
    intro k hk
    rw [applySelOp, toggleItemSelected] at hk
    by_cases hsel : selLookup m id
    · rw [if_pos (by simp [hsel])] at hk
      rw [selKeys] at hk
      obtain ⟨kv, hkv, hkvk⟩ := List.mem_map.mp hk
      have hkvm : kv ∈ m := List.mem_of_mem_filter hkv
      exact hm k (List.mem_map.mpr ⟨kv, hkvm, hkvk⟩)
    · rw [if_neg (by simp [hsel]), setKeyTrue] at hk
      by_cases hsome : (List.lookup id m).isSome
      · rw [if_pos hsome] at hk
        rw [selKeys, List.map_map] at hk
        obtain ⟨kv, hkv, hkvk⟩ := List.mem_map.mp hk
        have : ((fun kv : String × Bool => if kv.1 = id then (kv.1, true) else kv) kv).1 = kv.1 := by
          by_cases h1 : kv.1 = id <;> simp [h1]
        have hk1 : kv.1 = k := by
          rw [← hkvk]
          exact this.symm
        exact hm k (List.mem_map.mpr ⟨kv, hkv, hk1⟩)
      · rw [if_neg hsome] at hk
        rw [selKeys, List.map_append] at hk
        rcases List.mem_append.mp hk with h1 | h1
        · exact hm k h1
        · simp at h1
          rw [h1]
          exact hid

/-- C7: starting from the empty selection, after any sequence of
`toggleItemSelected` calls on listed file ids and `toggleTotalSelected`
calls, the keys of the selection map are a subset of the ids of the
currently listed files. -/
theorem selection_keys_subset (children : List OdChild) (ops : List SelOp)
    (hops : ∀ id, SelOp.item id ∈ ops → id ∈ (getFiles children).map OdChild.id) :
    ∀ k ∈ selKeys (runSelOps children ops), k ∈ (getFiles children).map OdChild.id := by
  suffices h : ∀ (ops2 : List SelOp) (m : SelMap),
      (∀ k ∈ selKeys m, k ∈ (getFiles children).map OdChild.id) →
      (∀ id, SelOp.item id ∈ ops2 → id ∈ (getFiles children).map OdChild.id) →
      ∀ k ∈ selKeys (ops2.foldl (applySelOp children) m),
        k ∈ (getFiles children).map OdChild.id by
    exact h ops [] (by simp [selKeys]) hops
  intro ops2
  induction ops2 with
  | nil =>
    intro m hm _
    simpa [List.foldl] using hm
  | cons op rest ih =>
    intro m hm hops2
    rw [List.foldl_cons]
    exact ih (applySelOp children m op)
      (applySelOp_keys_subset children m op hm
        (fun id hid => hops2 id (by rw [hid]; exact List.mem_cons_self _ _)))
      (fun id hid => hops2 id (List.mem_cons_of_mem _ hid))

/-- C7 witness: instantiation of `selection_keys_subset` at a two-file
listing with the operation sequence [toggle "f1", toggle-all], evaluated at
the key "f1" of the resulting selection. -/
theorem selection_keys_subset_witness :
    "f1" ∈ (getFiles [⟨"a.txt", "f1", false⟩, ⟨"b.txt", "f2", false⟩]).map OdChild.id :=
  selection_keys_subset [⟨"a.txt", "f1", false⟩, ⟨"b.txt", "f2", false⟩]
    [SelOp.item "f1", SelOp.total]
    (by
      intro id hid
      simp at hid
      rw [hid]
      decide)
    "f1" (by decide)

/-- C3: `handleSelectedDownload` dispatches on the number of selected listed
files: none selected does nothing; exactly one selected performs a
programmatic anchor click on that file's raw URL with no toast; more than
one selected sets the generating flag, shows a loading toast, calls
`downloadMultipleFiles`, and on resolution or rejection resets the flag to
false and replaces the toast with a success or error toast respectively. -/
theorem handleSelectedDownload_dispatch (children : List OdChild) (m : SelMap)
    (path : String) (tok : Option String) :
    (((getFiles children).filter (fun c => selLookup m c.id)).length = 0 →
      ∀ out, handleSelectedDownload children m path tok out = []) ∧
    (((getFiles children).filter (fun c => selLookup m c.id)).length = 1 →
      ∃ c, c ∈ getFiles children ∧ selLookup m c.id = true ∧
        ∀ out, handleSelectedDownload children m path tok out =
          [UIEffect.anchorClick (rawFileUrl path tok c.name)]) ∧
    (1 < ((getFiles children).filter (fun c => selLookup m c.id)).length →
      (handleSelectedDownload children m path tok PromiseOutcome.resolved =
        [UIEffect.setTotalGenerating true, UIEffect.toastLoading,
         UIEffect.callDownloadMultipleFiles (selectedDownloadFiles children m path tok),
         UIEffect.setTotalGenerating false, UIEffect.toastSuccessReplacingLoading]) ∧
      (handleSelectedDownload children m path tok PromiseOutcome.rejected =
        [UIEffect.setTotalGenerating true, UIEffect.toastLoading,
         UIEffect.callDownloadMultipleFiles (selectedDownloadFiles children m path tok),
         UIEffect.setTotalGenerating false, UIEffect.toastErrorReplacingLoading])) := by
  refine ⟨?_, ?_, ?_⟩
  · intro h0 out
    have hlen : (selectedDownloadFiles children m path tok).length = 0 := by
      rw [selectedDownloadFiles, List.length_map, h0]
    simp [handleSelectedDownload, hlen]
  · intro h1
    obtain ⟨c, hc⟩ := List.length_eq_one.mp h1
    have hcmem : c ∈ (getFiles children).filter (fun c => selLookup m c.id) := by
      rw [hc]; exact List.mem_cons_self _ _
    have hsel := List.of_mem_filter hcmem
    simp only at hsel
    refine ⟨c, List.mem_of_mem_filter hcmem, hsel, ?_⟩
    intro out
    have hfiles : selectedDownloadFiles children m path tok =
        [⟨c.name, rawFileUrl path tok c.name⟩] := by
      rw [selectedDownloadFiles, hc]
      rfl
    simp [handleSelectedDownload, hfiles]
  · intro h2
    have hlen : 1 < (selectedDownloadFiles children m path tok).length := by
      rw [selectedDownloadFiles, List.length_map]
      exact h2
    have hne1 : ¬((selectedDownloadFiles children m path tok).length = 1) := by omega
    constructor
    · simp only [handleSelectedDownload, if_neg hne1, if_pos hlen]
      rfl
    · simp only [handleSelectedDownload, if_neg hne1, if_pos hlen]
      rfl

/-- C3 witness: instantiation of `handleSelectedDownload_dispatch` at a
two-file listing with exactly one file selected. -/
theorem handleSelectedDownload_dispatch_witness :
    ∃ c, c ∈ getFiles [⟨"a.txt", "f1", false⟩, ⟨"b.txt", "f2", false⟩] ∧
      selLookup [("f1", true)] c.id = true ∧
      ∀ out, handleSelectedDownload [⟨"a.txt", "f1", false⟩, ⟨"b.txt", "f2", false⟩]
          [("f1", true)] "/docs" none out =
        [UIEffect.anchorClick (rawFileUrl "/docs" none c.name)] :=
  (handleSelectedDownload_dispatch [⟨"a.txt", "f1", false⟩, ⟨"b.txt", "f2", false⟩]
    [("f1", true)] "/docs" none).2.1 (by decide)

/-- C4 counterexample: in the first revision of `handleFolderDownload` a
traversal entry carrying an error produces no toast at all. -/
theorem handleFolderDownload_silent_cex :
    (handleFolderDownloadV1 none
      [⟨none, "/folder/sub", false, some ⟨500, "Internal Server Error"⟩⟩]).1 = [] ∧
    (⟨none, "/folder/sub", false, some ⟨500, "Internal Server Error"⟩⟩ : TraverseEntry).error ≠ none := by
  decide

/-- C4 (amended): in the second revision of `handleFolderDownload` every
error entry surfaces as exactly one toast carrying its path, status and
message, error entries are excluded from the files passed on, and the
traversal continues through the remaining entries in one pass; the first
revision also excludes error entries and continues but emits no toast. -/
theorem handleFolderDownload_spec (tokenFor : String → Option String)
    (tok : Option String) (entries : List TraverseEntry) :
    ((handleFolderDownloadV2 tokenFor entries).1 =
      entries.filterMap (fun e => e.error.map
        (fun err => FolderToast.failedFolderEntry e.path err.status err.message))) ∧
    ((handleFolderDownloadV2 tokenFor entries).2 =
      (entries.filter (fun e => e.error.isNone)).map (fun e =>
        ⟨e.name,
         "/api/raw/?path=" ++ e.path ++
           (if jsTruthyOpt (tokenFor e.path) then "&odpt=" ++ (tokenFor e.path).getD "" else ""),
         e.path, e.isFolder⟩)) ∧
    ((handleFolderDownloadV1 tok entries).1 = []) ∧
    ((handleFolderDownloadV1 tok entries).2 =
      (entries.filter (fun e => e.error.isNone)).map (fun e =>
        ⟨e.name,
         "/api/raw/?path=" ++ e.path ++
           (if jsTruthyOpt tok then "&odpt=" ++ tok.getD "" else ""),
         e.path, e.isFolder⟩)) := by
  induction entries with
  | nil => exact ⟨rfl, rfl, rfl, rfl⟩
  | cons e rest ih =>
    obtain ⟨ih1, ih2, ih3, ih4⟩ := ih
    cases herr : e.error with
    | some err =>
      refine ⟨?_, ?_, ?_, ?_⟩ <;>
        simp [handleFolderDownloadV2, handleFolderDownloadV1, herr,
              List.filterMap_cons, List.filter_cons, ih1, ih2, ih3, ih4]
    | none =>
      refine ⟨?_, ?_, ?_, ?_⟩ <;>
        simp [handleFolderDownloadV2, handleFolderDownloadV1, herr,
              List.filterMap_cons, List.filter_cons, ih1, ih2, ih3, ih4]

/-- C5: the error branch of `FileListing` dispatches on the HTTP status:
403 redirects to the OAuth route and renders an empty div, 401 renders the
authentication prompt with the current path as redirect, and any other
status renders the not-found view with the JSON-serialized error message. -/
theorem renderFetchError_dispatch (e : FetchError) (path : String) :
    (e.status = 403 → renderFetchError e path =
      ErrorRenderResult.redirectWithEmptyDiv "/onedrive-vercel-index-oauth/step-1") ∧
    (e.status = 401 → renderFetchError e path = ErrorRenderResult.authPrompt path) ∧
    (e.status ≠ 403 → e.status ≠ 401 → renderFetchError e path =
      ErrorRenderResult.fourOhFour (jsonStringifyString e.message)) := by
  refine ⟨?_, ?_, ?_⟩
  · intro h
    rw [renderFetchError, if_pos h]
  · intro h
    rw [renderFetchError, if_neg (by omega), if_pos h]
  · intro h1 h2
    rw [renderFetchError, if_neg h1, if_neg h2]

/-- C5 witness: instantiation of `renderFetchError_dispatch` at status 500. -/
theorem renderFetchError_dispatch_witness :
    renderFetchError ⟨500, "oops"⟩ "/docs" =
      ErrorRenderResult.fourOhFour (jsonStringifyString "oops") :=
  (renderFetchError_dispatch ⟨500, "oops"⟩ "/docs").2.2 (by decide) (by decide)

/-- C8 (code bug): starting from one listed file "f1" with all files
selected, the first revision of `toggleTotalSelected` clears the selection
but stores aggregate 2 — `genTotalSelected` of the stale pre-toggle map —
while `genTotalSelected` of the newly stored empty map is 0; the second
revision stores the aggregate of the new map. -/
theorem toggleTotalSelectedV1_stale_aggregate :
    (toggleTotalSelectedV1 [⟨"a.txt", "f1", false⟩] ⟨[("f1", true)], 2⟩).selected = [] ∧
    (toggleTotalSelectedV1 [⟨"a.txt", "f1", false⟩] ⟨[("f1", true)], 2⟩).totalSelected = 2 ∧
    genTotalSelected [⟨"a.txt", "f1", false⟩] [] = 0 ∧
    (toggleTotalSelectedV2 [⟨"a.txt", "f1", false⟩] ⟨[("f1", true)], 2⟩).totalSelected =
      genTotalSelected [⟨"a.txt", "f1", false⟩]
        (toggleTotalSelectedV2 [⟨"a.txt", "f1", false⟩] ⟨[("f1", true)], 2⟩).selected := by
  decide

/-- C6: every raw-file URL is "/api/raw/?path=" followed by the current
path, "/", and the URL-encoded file name, with "&odpt=" and the stored
token appended exactly when a (non-empty) token is present; and
`handleSelectedPermalink` is one such URL per selected listed file prefixed
with the base URL, joined by newlines, in listing order. -/
theorem rawFileUrl_form_and_permalink (children : List OdChild) (m : SelMap)
    (path : String) (tok : Option String) (baseUrl : String) :
    (∀ t : String, tok = some t → t ≠ "" → ∀ name : String,
      rawFileUrl path tok name =
        "/api/raw/?path=" ++ path ++ "/" ++ encodeURIComponent name ++ ("&odpt=" ++ t)) ∧
    (tok = none ∨ tok = some "" → ∀ name : String,
      rawFileUrl path tok name =
        "/api/raw/?path=" ++ path ++ "/" ++ encodeURIComponent name) ∧
    (∀ nu ∈ selectedDownloadFiles children m path tok,
      nu.url = rawFileUrl path tok nu.name) ∧
    (handleSelectedPermalink children m path tok baseUrl =
      String.intercalate "\n"
        (((getFiles children).filter (fun c => selLookup m c.id)).map
          (fun c => baseUrl ++ rawFileUrl path tok c.name))) := by
  refine ⟨?_, ?_, ?_, ?_⟩
  · intro t ht hne name
    subst ht
    have : jsTruthyOpt (some t) = true := by simp [jsTruthyOpt, hne]
    rw [rawFileUrl, this]
    rfl
  · intro h name
    rcases h with h | h <;> subst h <;>
      simp [rawFileUrl, jsTruthyOpt, String.append_empty]
  · intro nu hnu
    obtain ⟨d, hd, heq⟩ := List.mem_map.mp hnu
    subst heq
    rfl
  · rw [handleSelectedPermalink]
    congr 1
    apply List.map_congr_left
    intro d hd
    rw [rawFileUrl]
    simp [String.append_assoc]

/-- C6 witness: instantiation of `rawFileUrl_form_and_permalink` at a
present token and a file name containing a space. -/
theorem rawFileUrl_form_and_permalink_witness :
    rawFileUrl "/docs" (some "abc123") "file 1.txt" =
      "/api/raw/?path=" ++ "/docs" ++ "/" ++ encodeURIComponent "file 1.txt" ++
        ("&odpt=" ++ "abc123") :=
  (rawFileUrl_form_and_permalink [] [] "/docs" (some "abc123") "").1 "abc123" rfl
    (by decide) "file 1.txt"

/-- C10: a child named ".password" (like every folder child) is excluded
from `getFiles`; hence its selection status never affects the tri-value
aggregate, `toggleTotalSelected` never adds its id to the selection, every
file passed to the bulk download is a selected non-".password" file, and
every permalink URL is generated from a selected non-".password",
non-folder file. -/
theorem password_never_included (children : List OdChild) (m : SelMap)
    (path : String) (tok : Option String) (baseUrl : String) (c : OdChild)
    (hc : c ∈ children) (hpw : c.name = ".password" ∨ c.isFolder = true)
    (hnodup : (children.map OdChild.id).Nodup) :
    c ∉ getFiles children ∧
    (∀ b : Bool, genTotalSelected children ((c.id, b) :: m) = genTotalSelected children m) ∧
    c.id ∉ selKeys (toggleTotalSelectedSel children m) ∧
    (∀ nu ∈ selectedDownloadFiles children m path tok,
      nu.name ≠ ".password" ∧
      ∃ d ∈ getFiles children, selLookup m d.id = true ∧
        nu = ⟨d.name, rawFileUrl path tok d.name⟩) ∧
    (∀ u ∈ ((getFiles children).filter (fun d => selLookup m d.id)).map
        (fun d => baseUrl ++ "/api/raw/?path=" ++ path ++ "/" ++ encodeURIComponent d.name ++
          (if jsTruthyOpt tok then "&odpt=" ++ tok.getD "" else "")),
      ∃ d ∈ getFiles children, d.name ≠ ".password" ∧ d.isFolder = false ∧
        selLookup m d.id = true ∧ u = baseUrl ++ rawFileUrl path tok d.name) := by
  have hnotin : c ∉ getFiles children := by
    intro hmem
    have hp := List.of_mem_filter hmem
    rcases hpw with h | h <;> simp [h] at hp
  have hcid : c.id ∉ (getFiles children).map OdChild.id := by
    intro hmem
    obtain ⟨d, hd, hdid⟩ := List.mem_map.mp hmem
    have hdc : d = c :=
      List.inj_on_of_nodup_map hnodup (List.mem_of_mem_filter hd) hc hdid
    rw [hdc] at hd
    exact hnotin hd
  have hfile_props : ∀ d ∈ getFiles children, d.name ≠ ".password" ∧ d.isFolder = false := by
    intro d hd
    have hp := List.of_mem_filter hd
    simp at hp
    exact ⟨hp.2, hp.1⟩
  refine ⟨hnotin, ?_, ?_, ?_, ?_⟩
  · intro b
    have hmap : (getFiles children).map (fun d => selLookup ((c.id, b) :: m) d.id) =
        (getFiles children).map (fun d => selLookup m d.id) := by
      apply List.map_congr_left
      intro d hd
      have hne : d.id ≠ c.id := by
        intro h
        exact hcid (List.mem_map.mpr ⟨d, hd, h⟩)
      rw [selLookup, selLookup, List.lookup_cons, show (d.id == c.id) = false by simp [hne]]
    simp only [genTotalSelected]
    rw [hmap]
  · intro hmem
    rw [toggleTotalSelectedSel] at hmem
    by_cases hgen : genTotalSelected children m = 2
    · rw [if_pos hgen] at hmem
      simp [selKeys] at hmem
    · rw [if_neg hgen] at hmem
      rw [selKeys, List.map_map] at hmem
      obtain ⟨d, hd, hdid⟩ := List.mem_map.mp hmem
      exact hcid (List.mem_map.mpr ⟨d, hd, hdid⟩)
  · intro nu hnu
    obtain ⟨d, hd, heq⟩ := List.mem_map.mp hnu
    have hdg : d ∈ getFiles children := List.mem_of_mem_filter hd
    have hdsel := List.of_mem_filter hd
    simp only at hdsel
    constructor
    · rw [← heq]
      exact (hfile_props d hdg).1
    · exact ⟨d, hdg, hdsel, heq.symm⟩
  · intro u hu
    obtain ⟨d, hd, heq⟩ := List.mem_map.mp hu
    have hdg : d ∈ getFiles children := List.mem_of_mem_filter hd
    have hdsel := List.of_mem_filter hd
    simp only at hdsel
    refine ⟨d, hdg, (hfile_props d hdg).1, (hfile_props d hdg).2, hdsel, ?_⟩
    rw [← heq, rawFileUrl]
    simp [String.append_assoc]

/-- C10 witness: instantiation of `password_never_included` at a listing
containing a ".password" file and one ordinary selected file. -/
theorem password_never_included_witness :
    (⟨".password", "p1", false⟩ : OdChild) ∉
      getFiles [⟨".password", "p1", false⟩, ⟨"a.txt", "f1", false⟩] ∧
    (⟨".password", "p1", false⟩ : OdChild).id ∉
      selKeys (toggleTotalSelectedSel [⟨".password", "p1", false⟩, ⟨"a.txt", "f1", false⟩]
        [("f1", true)]) :=
  ⟨(password_never_included [⟨".password", "p1", false⟩, ⟨"a.txt", "f1", false⟩]
      [("f1", true)] "/docs" none "" ⟨".password", "p1", false⟩
      (by decide) (by decide) (by decide)).1,
   (password_never_included [⟨".password", "p1", false⟩, ⟨"a.txt", "f1", false⟩]
      [("f1", true)] "/docs" none "" ⟨".password", "p1", false⟩
      (by decide) (by decide) (by decide)).2.2.1⟩
